import Mathlib

/-!
Verification of the Alice local AI services backend (python sources).

This file shallowly embeds the parts of the code relevant to the checked
properties:

* `services/embeddings.py` — cosine similarity, similarity search, batch
  embedding generation, text cleaning, the service lifecycle state
  (`initialize` / `cleanup` / `is_ready`).
* `services/stt.py` — float32-to-WAV encoding (`_float32_to_wav`).
* `utils/runtime_installer.py` — `ensure_package_installed`.
* `api/embeddings.py`, `api/tts.py` — the HTTP route handlers, including
  their `try/except Exception` wrapping of raised `HTTPException`s.

Numbers are modelled as exact rationals (`ℚ`); `np.linalg.norm`'s square
root is modelled by an explicit function parameter `sq`, constrained in
theorems to behave as a square root on the values where the code applies
it.  State-carrying code is modelled by explicit state passing, with an
oracle for the outcome of external effects (model construction, package
install subprocess, import tests).
-/

namespace Alice

/-! ## Embeddings arithmetic (services/embeddings.py) -/

/-- Dot product of two vectors, `np.dot` on equal-length arrays. -/
def dotProd (v w : List ℚ) : ℚ := (List.zipWith (fun a b => a * b) v w).sum

/-- Sum of squares of a vector, the square of `np.linalg.norm v`. -/
def sumSq (v : List ℚ) : ℚ := dotProd v v

/-- The epsilon guard `1e-8` added to the norm in `_cosine_similarity`. -/
def normEps : ℚ := 1 / 100000000

/-- Elementwise division of a vector by a scalar, `vec / c` in numpy. -/
def normalizeBy (c : ℚ) (v : List ℚ) : List ℚ := v.map (fun x => x / c)

/-- Elementwise negation of a vector (`-v`). -/
def negVec (v : List ℚ) : List ℚ := v.map (fun x => -x)

/-- Embeds `EmbeddingsService._cosine_similarity`: normalize each vector by its
norm plus `1e-8`, then take the dot product.  `sq` models the square root
used by `np.linalg.norm` (so `sq (sumSq v)` is the norm of `v`). -/
def cosine_similarity (sq : ℚ → ℚ) (v w : List ℚ) : ℚ :=
  dotProd (normalizeBy (sq (sumSq v) + normEps) v)
          (normalizeBy (sq (sumSq w) + normEps) w)

/-- Embeds `EmbeddingsService.compute_similarity`: converts to arrays and defers
to `_cosine_similarity` (conversion is the identity in this model). -/
def compute_similarity (sq : ℚ → ℚ) (v w : List ℚ) : ℚ := cosine_similarity sq v w

/-- Ordering used by `similarities.sort(key=..., reverse=True)`:
descending by the similarity component. -/
def simOrder (a b : ℕ × ℚ) : Prop := b.2 ≤ a.2

instance : DecidableRel simOrder := fun a b => inferInstanceAs (Decidable (b.2 ≤ a.2))

instance : IsTotal (ℕ × ℚ) simOrder := ⟨fun a b => le_total b.2 a.2⟩

instance : IsTrans (ℕ × ℚ) simOrder := ⟨fun _ _ _ h1 h2 => le_trans h2 h1⟩

/-- Embeds `EmbeddingsService.find_most_similar`: score every candidate with
`compute_similarity` against the query, sort descending by similarity and
keep the first `top_k` entries.  Each entry is `(index, similarity)`. -/
def find_most_similar (sq : ℚ → ℚ) (query : List ℚ) (cands : List (List ℚ))
    (top_k : ℕ) : List (ℕ × ℚ) :=
  if cands = [] then []
  else
    List.take top_k
      (List.insertionSort simOrder
        (((List.range cands.length).zip cands).map
          (fun p => (p.1, compute_similarity sq query p.2))))

/-! ## Text cleaning and batch embedding (services/embeddings.py) -/

/-- Whitespace as recognised by `str.strip()` / `\s` (ASCII range):
space, tab, newline, carriage return, vertical tab, form feed. -/
def isSpaceChar (c : Char) : Bool :=
  c = ' ' || c = '\t' || c = '\n' || c = '\r' || c = Char.ofNat 11 || c = Char.ofNat 12

/-- Python `str.strip()`: drop leading and trailing whitespace. -/
def stripChars (s : List Char) : List Char :=
  ((s.dropWhile isSpaceChar).reverse.dropWhile isSpaceChar).reverse

/-- Helper for `re.sub(r'\s+', ' ', s)`: the boolean records whether the
previous character was part of a whitespace run already emitted as ' '. -/
def collapseWs : Bool → List Char → List Char
  | _, [] => []
  | prev, c :: cs =>
    if isSpaceChar c then
      (if prev then collapseWs true cs else ' ' :: collapseWs true cs)
    else c :: collapseWs false cs

/-- The character budget in `_clean_text`:
`self.max_sequence_length * 4 if self.max_sequence_length else 2000`
(Python truthiness: `None` and `0` both fall back to 2000). -/
def maxCharsOf (maxSeq : Option ℕ) : ℕ :=
  match maxSeq with
  | some m => if m = 0 then 2000 else m * 4
  | none => 2000

/-- Embeds `EmbeddingsService._clean_text`: strip, collapse interior whitespace
runs to single spaces, and truncate to `maxChars` characters appending
`"..."` when over budget. -/
def clean_text (maxChars : ℕ) (s : List Char) : List Char :=
  let cleaned := collapseWs false (stripChars s)
  if maxChars < cleaned.length then cleaned.take maxChars ++ ['.', '.', '.']
  else cleaned

/-- Python truthiness of `text.strip()`: non-blank after stripping. -/
def nonBlank (s : List Char) : Bool := !(stripChars s).isEmpty

/-- Embeds `EmbeddingsService.generate_embeddings` (batch embed): raises
(`none`) when the service is not initialized; otherwise cleans every
text, filters out the ones that are blank after cleaning, returns `[]`
when none survive, and otherwise encodes the surviving texts.  `encode`
models `self.model.encode` producing one vector per input text. -/
def generate_embeddings (initialized : Bool) (encode : List Char → List ℚ)
    (maxChars : ℕ) (texts : List (List Char)) : Option (List (List ℚ)) :=
  if !initialized then none
  else
    let cleaned := texts.map (clean_text maxChars)
    let valid := cleaned.filter nonBlank
    if valid.isEmpty then some []
    else some (valid.map encode)

/-! ## WAV encoding (services/stt.py `_float32_to_wav`) -/

/-- Python `int(...)`: truncation toward zero. -/
def pyTrunc (q : ℚ) : ℤ := if 0 ≤ q then ⌊q⌋ else ⌈q⌉

/-- Clamp a sample to `[-1, 1]` (`max(-1.0, min(1.0, sample))`). -/
def clampSample (s : ℚ) : ℚ := max (-1) (min 1 s)

/-- One sample of `_float32_to_wav`'s conversion loop:
`int16_sample = int(clamped * 32767)`. -/
def toInt16 (s : ℚ) : ℤ := pyTrunc (clampSample s * 32767)

/-- Models `struct.pack('h', q)` on a little-endian host: two bytes, two's
complement, low byte first. -/
def packInt16LE (q : ℤ) : List ℕ :=
  [((q % 65536) % 256).toNat, ((q % 65536) / 256).toNat]

/-- Little-endian `ℕ` byte encodings used by the `wave` module header. -/
def u16le (n : ℕ) : List ℕ := [n % 256, n / 256 % 256]

def u32le (n : ℕ) : List ℕ :=
  [n % 256, n / 256 % 256, n / 65536 % 256, n / 16777216 % 256]

/-- The 44-byte RIFF/WAVE header written by the `wave` module for a mono
16-bit PCM stream: RIFF size, "WAVE", fmt chunk (PCM, 1 channel, sample
rate, byte rate, block align 2, 16 bits), data chunk size. -/
def wavHeader (sampleRate dataLen : ℕ) : List ℕ :=
  [82, 73, 70, 70] ++ u32le (36 + dataLen) ++ [87, 65, 86, 69] ++
  [102, 109, 116, 32] ++ u32le 16 ++ u16le 1 ++ u16le 1 ++
  u32le sampleRate ++ u32le (sampleRate * 2) ++ u16le 2 ++ u16le 16 ++
  [100, 97, 116, 97] ++ u32le dataLen

/-- Embeds `STTService._float32_to_wav`: clamp each float sample to `[-1,1]`,
scale by 32767, truncate to int16, pack little-endian after the WAV
header. -/
def float32_to_wav (samples : List ℚ) (sampleRate : ℕ) : List ℕ :=
  let frames := ((samples.map toInt16).map packInt16LE).flatten
  wavHeader sampleRate frames.length ++ frames

/-- Decode 16-bit little-endian PCM frames back to signed integers. -/
def decodeInt16LE : List ℕ → List ℤ
  | b0 :: b1 :: rest =>
    (if 32768 ≤ b0 + 256 * b1 then (b0 + 256 * b1 : ℤ) - 65536
     else (b0 + 256 * b1 : ℤ)) :: decodeInt16LE rest
  | _ => []

/-- Decode PCM frame bytes to float samples, dividing each int16 sample
by 32767. -/
def decodeSamples (bytes : List ℕ) : List ℚ :=
  (decodeInt16LE bytes).map (fun q : ℤ => (q : ℚ) / 32767)

/-! ## HTTP route handlers (api/embeddings.py, api/tts.py)

Each handler body runs inside `try: ... except Exception as e: raise
HTTPException(status_code=500, detail=f"... failed: {str(e)}")`.
FastAPI's `HTTPException` derives from `Exception`, so the `503`/`400`
exceptions raised inside the `try` block are caught by that clause and
re-raised as status 500 with the original `"{status}: {detail}"` text
embedded in the new detail string.  The `wrap...` constructors model that
re-wrapping. -/

/-- Structured model of the handler detail strings. -/
inductive Detail where
  | embNotReady
  | ttsNotReady
  | textRequired
  | queryCandidatesRequired
  | candidateDimMismatch (i : ℕ)
  | failedGenerate
  | failedSynthesize
  | wrapEmbGen (status : ℕ) (d : Detail)
  | wrapSynth (status : ℕ) (d : Detail)
  | wrapSearch (status : ℕ) (d : Detail)
deriving DecidableEq

/-- A raised `HTTPException`: status code plus detail. -/
structure HExc where
  status : ℕ
  detail : Detail
deriving DecidableEq

/-- Successful response payloads of the modelled endpoints. -/
inductive RespBody where
  | embedding (e : List ℚ) (dim : ℕ)
  | audio (bytes : List ℕ)
  | searchResults (rs : List (ℕ × ℚ))
deriving DecidableEq

/-- An HTTP response as produced by FastAPI for the modelled handlers. -/
inductive HResp where
  | ok (b : RespBody)
  | err (status : ℕ) (d : Detail)
deriving DecidableEq

/-- The HTTP status of a response (200 for a success body). -/
def statusOf : HResp → ℕ
  | .ok _ => 200
  | .err s _ => s

/-- Embeds `api/embeddings.py generate_embedding` (POST /embeddings/generate).
`ready` is `embeddings_service.is_ready()`; `svc` models the
`generate_embedding` service call (`none` = returned `None`).  The second
component records whether the service/backend call was made. -/
def generate_embedding_route (ready : Bool) (svc : List Char → Option (List ℚ))
    (text : List Char) : HResp × Bool :=
  let body : Except HExc RespBody × Bool :=
    if !ready then (.error ⟨503, .embNotReady⟩, false)
    else if (stripChars text).isEmpty then (.error ⟨400, .textRequired⟩, false)
    else
      match svc text with
      | none => (.error ⟨500, .failedGenerate⟩, true)
      | some e => (.ok (.embedding e e.length), true)
  match body with
  | (.ok b, c) => (.ok b, c)
  | (.error ex, c) => (.err 500 (.wrapEmbGen ex.status ex.detail), c)

/-- Embeds `api/tts.py synthesize_speech` (POST /tts/synthesize).  `svc` models
`tts_service.synthesize_speech(text, voice)`. -/
def synthesize_speech_route (ready : Bool)
    (svc : List Char → Option (List Char) → Option (List ℕ))
    (text : List Char) (voice : Option (List Char)) : HResp × Bool :=
  let body : Except HExc RespBody × Bool :=
    if !ready then (.error ⟨503, .ttsNotReady⟩, false)
    else if (stripChars text).isEmpty then (.error ⟨400, .textRequired⟩, false)
    else
      match svc text voice with
      | none => (.error ⟨500, .failedSynthesize⟩, true)
      | some audio => (.ok (.audio audio), true)
  match body with
  | (.ok b, c) => (.ok b, c)
  | (.error ex, c) => (.err 500 (.wrapSynth ex.status ex.detail), c)

/-- The dimension-check loop of `similarity_search`:
`for i, candidate in enumerate(candidates): if len(candidate) != query_dim:
raise ...` — index of the first candidate whose length differs. -/
def firstDimMismatch (qlen : ℕ) : List (List ℚ) → Option ℕ
  | [] => none
  | c :: rest =>
    if c.length ≠ qlen then some 0
    else (firstDimMismatch qlen rest).map (fun i => i + 1)

/-- Embeds `api/embeddings.py similarity_search` (POST /embeddings/search).
The boolean records whether `find_most_similar` (candidate scoring) was
invoked. -/
def similarity_search_route (ready : Bool) (sq : ℚ → ℚ) (query : List ℚ)
    (cands : List (List ℚ)) (top_k : ℕ) : HResp × Bool :=
  let body : Except HExc RespBody × Bool :=
    if !ready then (.error ⟨503, .embNotReady⟩, false)
    else if query.isEmpty || cands.isEmpty then
      (.error ⟨400, .queryCandidatesRequired⟩, false)
    else
      match firstDimMismatch query.length cands with
      | some i => (.error ⟨400, .candidateDimMismatch i⟩, false)
      | none => (.ok (.searchResults (find_most_similar sq query cands top_k)), true)
  match body with
  | (.ok b, c) => (.ok b, c)
  | (.error ex, c) => (.err 500 (.wrapSearch ex.status ex.detail), c)

/-! ## Runtime installer (utils/runtime_installer.py) -/

/-- Outcome of one invocation of the `import_test` callable: it returns
normally, raises `ImportError`, or raises some other exception. -/
inductive TOut where
  | success
  | importError
  | otherError
deriving DecidableEq

/-- Models `self.installed_packages.get(package_name, False)` on the shared map,
modelled as an association list updated by prepending. -/
def installedGet (m : List (String × Bool)) (pkg : String) : Bool :=
  match m.lookup pkg with
  | some b => b
  | none => false

/-- Models `self.installed_packages[package_name] = True`. -/
def setInstalled (m : List (String × Bool)) (pkg : String) : List (String × Bool) :=
  (pkg, true) :: m

/-- Embeds `RuntimeInstaller.ensure_package_installed` with an `import_test`
supplied, for one call running under the install lock (calls are
serialized by the lock, so a call sees a fixed map).  `t1` is the outcome
of the pre-install import test, `installOk` the success of the pip
subprocess (`_install_package`), `t2` the outcome of the post-install
re-run of the test.  Result: `(returned value, new map, install attempted)`.
A non-`ImportError` exception from an import test propagates to the
outer `except Exception` clause, which returns `False`. -/
def ensure_package_installed (m : List (String × Bool)) (pkg : String)
    (t1 : TOut) (installOk : Bool) (t2 : TOut) :
    Bool × List (String × Bool) × Bool :=
  if installedGet m pkg then (true, m, false)
  else
    match t1 with
    | .success => (true, setInstalled m pkg, false)
    | .otherError => (false, m, false)
    | .importError =>
      if installOk then
        match t2 with
        | .success => (true, setInstalled m pkg, true)
        | .importError => (false, m, true)
        | .otherError => (false, m, true)
      else (false, m, true)

/-- Square-root oracle used by the C8 witness: exact on `25`. -/
def sqrtW : ℚ → ℚ := fun q => if q = 25 then 5 else 0

/-- Package name used by the C2 witness. -/
def fwPkg : String := "faster-whisper"

/-! ## Service lifecycle state machine (C1)

Concurrent `initialize()` callers on one service, following the shape of
`STTService.initialize` (TTS alike): first a pre-lock phase — the
`ensure_package_installed` call and its import checks (stt.py lines
41-52) — whose failure makes the caller return `False` without ever
touching `self._lock`; then `async with self._lock:` around the re-check
of `self._initialized`, the model construction and the flag update.
Every access to the shared fields happens inside the lock, so the model
gives each caller three atomic steps: the pre-lock installer phase,
acquiring the lock, and running the critical section.

`outcomes k` is the oracle for the `k`-th model-construction attempt:
`true` when construction (and any following metadata call) succeeds,
`false` when one of them raises.  `installOk i` is the result caller `i`
observes from its `ensure_package_installed` call; making it a per-caller
oracle covers every behaviour of the installer's own lock and shared map
(first caller's pip subprocess failing while a later caller's retry
succeeds, and so on).  For `EmbeddingsService`, whose pre-lock phase is
only the module-availability check, `installOk` is constantly true. -/

/-- Progress of one caller of `initialize()`: `notStarted` — the pre-lock
dependency phase has not run yet; `installed` — `ensure_package_installed`
returned true and the caller is waiting for (or holding) `self._lock`;
`done r` — the caller's `initialize()` returned `r`. -/
inductive Pc where
  | notStarted
  | installed
  | done (r : Bool)
deriving DecidableEq

/-- Shared service state plus per-caller progress.  `lock = some i` means
caller `i` holds `self._lock`. -/
structure SvcState where
  lock : Option ℕ
  initialized : Bool
  attempts : ℕ
  callers : List Pc
deriving DecidableEq

/-- Initial state for `n` concurrent callers of a fresh service. -/
def svcStart (n : ℕ) : SvcState :=
  ⟨none, false, 0, List.replicate n .notStarted⟩

/-- One scheduler step by caller `i`: run the pre-lock installer phase
(on failure `initialize()` returns `False` right there, before the lock);
or acquire the free lock; or (when holding it) run the critical section —
return `True` immediately when `self._initialized` is already set,
otherwise attempt model construction, set the flag on success, and return
the outcome.  `none` means caller `i` cannot move (blocked on the lock or
finished). -/
def svcStep (outcomes installOk : ℕ → Bool) (σ : SvcState) (i : ℕ) :
    Option SvcState :=
  if σ.callers.getD i (.done true) = Pc.notStarted then
    some { σ with callers :=
      σ.callers.set i (if installOk i then Pc.installed else Pc.done false) }
  else if σ.callers.getD i (.done true) ≠ Pc.installed then none
  else if σ.lock = none then some { σ with lock := some i }
  else if σ.lock = some i then
    if σ.initialized then
      some { σ with lock := none, callers := σ.callers.set i (.done true) }
    else
      some { lock := none, initialized := outcomes σ.attempts,
             attempts := σ.attempts + 1,
             callers := σ.callers.set i (.done (outcomes σ.attempts)) }
  else none

/-- Run a schedule (list of caller ids); steps by blocked callers are
skipped. -/
def svcRun (outcomes installOk : ℕ → Bool) : SvcState → List ℕ → SvcState
  | σ, [] => σ
  | σ, i :: rest =>
    match svcStep outcomes installOk σ i with
    | none => svcRun outcomes installOk σ rest
    | some σ' => svcRun outcomes installOk σ' rest

/-- States reachable by some interleaving of the callers. -/
inductive SvcReach (outcomes installOk : ℕ → Bool) : SvcState → Prop where
  | base (n : ℕ) : SvcReach outcomes installOk (svcStart n)
  | step {σ : SvcState} {i : ℕ} {σ' : SvcState} :
      SvcReach outcomes installOk σ → svcStep outcomes installOk σ i = some σ' →
      SvcReach outcomes installOk σ'

/-! ## Embeddings service lifecycle state (C3) -/

/-- The lifecycle-relevant fields of `EmbeddingsService`. -/
structure EmbState where
  model : Option Unit
  initialized : Bool
  dimension : Option ℕ
  maxSeq : Option ℕ
deriving DecidableEq

/-- Models `EmbeddingsService.__init__`. -/
def embStart : EmbState := ⟨none, false, none, none⟩

/-- The critical section of `EmbeddingsService.initialize()`.
`constructOk` — the `SentenceTransformer(...)` construction in the
executor returns (otherwise the exception leaves the state unchanged);
`metadataOk` — `self.model.get_sentence_embedding_dimension()` returns
(it runs after `self.model` has already been assigned, so on an
exception the handle stays set while `_initialized` stays false). -/
def embInitCall (constructOk metadataOk : Bool) (dim maxS : ℕ)
    (s : EmbState) : EmbState × Bool :=
  if s.initialized then (s, true)
  else if !constructOk then (s, false)
  else if !metadataOk then ({ s with model := some () }, false)
  else ({ model := some (), initialized := true,
          dimension := some dim, maxSeq := some maxS }, true)

/-- Embeds `EmbeddingsService.cleanup()`: drop the handle, clear the flag and
the metadata. -/
def embCleanup (_ : EmbState) : EmbState := embStart

/-- Embeds `EmbeddingsService.is_ready()`:
`self._initialized and self.model is not None`. -/
def emb_is_ready (s : EmbState) : Bool := s.initialized && s.model.isSome

/-- States reachable by any sequence of `initialize()` and `cleanup()`
calls with any outcomes of construction and metadata retrieval. -/
inductive EmbReach : EmbState → Prop where
  | base : EmbReach embStart
  | init {s : EmbState} (c m : Bool) (d ms : ℕ) :
      EmbReach s → EmbReach (embInitCall c m d ms s).1
  | clean {s : EmbState} : EmbReach s → EmbReach (embCleanup s)

/-! ## Helper lemmas -/

theorem dotProd_nil_right (v : List ℚ) : dotProd v [] = 0 := by
  cases v <;> rfl

theorem dotProd_cons (x y : ℚ) (xs ys : List ℚ) :
    dotProd (x :: xs) (y :: ys) = x * y + dotProd xs ys := rfl

theorem dotProd_normalizeBy (a b : ℚ) (v w : List ℚ) :
    dotProd (normalizeBy a v) (normalizeBy b w) = dotProd v w / (a * b) := by
  induction v generalizing w with
  | nil => simp [dotProd, normalizeBy]
  | cons x xs ih =>
    cases w with
    | nil => simp [dotProd_nil_right, normalizeBy]
    | cons y ys =>
      show x / a * (y / b) + dotProd (normalizeBy a xs) (normalizeBy b ys)
          = (x * y + dotProd xs ys) / (a * b)
      rw [ih, div_mul_div_comm, div_add_div_same]

theorem sumSq_nonneg (v : List ℚ) : 0 ≤ sumSq v := by
  induction v with
  | nil => simp [sumSq, dotProd]
  | cons x xs ih =>
    have : sumSq (x :: xs) = x * x + sumSq xs := rfl
    rw [this]
    nlinarith [mul_self_nonneg x]

theorem sumSq_pos (v : List ℚ) (hx : ∃ x ∈ v, x ≠ 0) : 0 < sumSq v := by
  induction v with
  | nil => simp at hx
  | cons x xs ih =>
    have hc : sumSq (x :: xs) = x * x + sumSq xs := rfl
    rcases hx with ⟨y, hy, hy0⟩
    rcases List.mem_cons.mp hy with h | h
    · subst h
      have hyy : 0 < y * y := mul_self_pos.mpr hy0
      rw [hc]; nlinarith [sumSq_nonneg xs]
    · have := ih ⟨y, h, hy0⟩
      rw [hc]; nlinarith [mul_self_nonneg x]

theorem dotProd_neg_neg (v w : List ℚ) : dotProd (negVec v) (negVec w) = dotProd v w := by
  induction v generalizing w with
  | nil => simp [dotProd, negVec]
  | cons x xs ih =>
    cases w with
    | nil => simp [dotProd_nil_right, negVec]
    | cons y ys =>
      show -x * -y + dotProd (negVec xs) (negVec ys) = x * y + dotProd xs ys
      rw [ih]; ring_nf

theorem dotProd_neg_right (v w : List ℚ) : dotProd v (negVec w) = -dotProd v w := by
  induction v generalizing w with
  | nil => simp [dotProd, negVec]
  | cons x xs ih =>
    cases w with
    | nil => simp [dotProd_nil_right, negVec]
    | cons y ys =>
      show x * -y + dotProd xs (negVec ys) = -(x * y + dotProd xs ys)
      rw [ih]; ring

theorem sumSq_negVec (v : List ℚ) : sumSq (negVec v) = sumSq v := by
  unfold sumSq; exact dotProd_neg_neg v v

theorem ratio_bound (n e : ℚ) (hn : 0 < n) (he : 0 < e) :
    |n ^ 2 / ((n + e) * (n + e)) - 1| ≤ 2 * e / n + (e / n) ^ 2 := by
  have hne : 0 < n + e := by linarith
  have h1 : n ^ 2 / ((n + e) * (n + e)) ≤ 1 := by
    rw [div_le_one (by positivity)]
    nlinarith
  rw [abs_sub_comm, abs_of_nonneg (by linarith)]
  have key : 1 - n ^ 2 / ((n + e) * (n + e)) = (2 * n * e + e ^ 2) / ((n + e) * (n + e)) := by
    field_simp
    ring
  have rhs_eq : 2 * e / n + (e / n) ^ 2 = (2 * n * e + e ^ 2) / (n * n) := by
    field_simp
    ring
  rw [key, rhs_eq, div_le_div_iff₀ (by positivity) (by positivity)]
  nlinarith [mul_pos hn he, sq_nonneg e, sq_nonneg (n + e)]

/-! ## Theorems for the claims -/

/-- Claim C7: for every query embedding, every list of candidate embeddings
and every `k`, `find_most_similar(query, candidates, top_k=k)` returns at
most `k` results, sorted in descending order of similarity, every
returned index lies in `[0, len(candidates))`, and for an empty candidate
list it returns the empty list. -/
theorem find_most_similar_spec (sq : ℚ → ℚ) (query : List ℚ)
    (cands : List (List ℚ)) (k : ℕ) :
    (find_most_similar sq query cands k).length ≤ k ∧
    List.Sorted simOrder (find_most_similar sq query cands k) ∧
    (∀ p ∈ find_most_similar sq query cands k, p.1 < cands.length) ∧
    (cands = [] → find_most_similar sq query cands k = []) := by
  by_cases h : cands = []
  · subst h; simp [find_most_similar]
  · rw [find_most_similar, if_neg h]
    refine ⟨?_, ?_, ?_, fun hc => absurd hc h⟩
    · rw [List.length_take]; exact min_le_left _ _
    · exact List.Pairwise.sublist (List.take_sublist _ _)
        (List.sorted_insertionSort simOrder _)
    · intro p hp
      have hp1 := List.mem_of_mem_take hp
      have hp2 := (List.perm_insertionSort simOrder _).mem_iff.mp hp1
      obtain ⟨pr, hpr, hpe⟩ := List.mem_map.mp hp2
      obtain ⟨a, b⟩ := pr
      have ha := (List.of_mem_zip hpr).1
      rw [List.mem_range] at ha
      rw [← hpe]
      exact ha

/-- Claim C8: for every non-zero vector `v` (with `sq` behaving as the
square root on `sumSq v`, as `np.linalg.norm` does), the self-similarity
`compute_similarity(v, v)` is within the epsilon-normalization error of
`1.0`, and `compute_similarity(v, -v)` within the same error of `-1.0`. -/
theorem compute_similarity_self_neg (sq : ℚ → ℚ) (v : List ℚ)
    (hx : ∃ x ∈ v, x ≠ 0)
    (hsq : sq (sumSq v) ^ 2 = sumSq v) (hpos : 0 ≤ sq (sumSq v)) :
    |compute_similarity sq v v - 1|
      ≤ 2 * normEps / sq (sumSq v) + (normEps / sq (sumSq v)) ^ 2 ∧
    |compute_similarity sq v (negVec v) + 1|
      ≤ 2 * normEps / sq (sumSq v) + (normEps / sq (sumSq v)) ^ 2 := by
  have hss : 0 < sumSq v := sumSq_pos v hx
  have hn : 0 < sq (sumSq v) := by
    rcases lt_or_eq_of_le hpos with h | h
    · exact h
    · exfalso; rw [← h] at hsq; simp at hsq; linarith
  have heps : (0 : ℚ) < normEps := by norm_num [normEps]
  have hdd : dotProd v v = sq (sumSq v) ^ 2 := hsq.symm
  have hself : compute_similarity sq v v
      = sq (sumSq v) ^ 2 / ((sq (sumSq v) + normEps) * (sq (sumSq v) + normEps)) := by
    rw [compute_similarity, cosine_similarity, dotProd_normalizeBy, hdd]
  have hneg : compute_similarity sq v (negVec v)
      = -(sq (sumSq v) ^ 2 / ((sq (sumSq v) + normEps) * (sq (sumSq v) + normEps))) := by
    rw [compute_similarity, cosine_similarity, dotProd_normalizeBy, sumSq_negVec,
      dotProd_neg_right, hdd, neg_div]
  constructor
  · rw [hself]
    exact ratio_bound _ _ hn heps
  · rw [hneg]
    have : -(sq (sumSq v) ^ 2 / ((sq (sumSq v) + normEps) * (sq (sumSq v) + normEps))) + 1
        = -(sq (sumSq v) ^ 2 / ((sq (sumSq v) + normEps) * (sq (sumSq v) + normEps)) - 1) := by
      ring
    rw [this, abs_neg]
    exact ratio_bound _ _ hn heps

/-- Witness for C7 at a concrete query, empty candidate list and `k = 5`. -/
theorem find_most_similar_spec_witness :
    (find_most_similar (fun _ => 0) [(1 : ℚ)] [] 5).length ≤ 5 ∧
    List.Sorted simOrder (find_most_similar (fun _ => 0) [(1 : ℚ)] [] 5) ∧
    (∀ p ∈ find_most_similar (fun _ => 0) [(1 : ℚ)] [] 5,
      p.1 < ([] : List (List ℚ)).length) ∧
    (([] : List (List ℚ)) = [] → find_most_similar (fun _ => 0) [(1 : ℚ)] [] 5 = []) :=
  find_most_similar_spec (fun _ => 0) [(1 : ℚ)] [] 5

/-- Witness for C8 at the concrete non-zero vector `[3, 4]` (norm 5). -/
theorem compute_similarity_self_neg_witness :
    ((∃ x ∈ [(3 : ℚ), 4], x ≠ 0) ∧ sqrtW (sumSq [(3 : ℚ), 4]) ^ 2 = sumSq [(3 : ℚ), 4] ∧
      0 ≤ sqrtW (sumSq [(3 : ℚ), 4])) ∧
    (|compute_similarity sqrtW [(3 : ℚ), 4] [(3 : ℚ), 4] - 1|
        ≤ 2 * normEps / sqrtW (sumSq [(3 : ℚ), 4]) + (normEps / sqrtW (sumSq [(3 : ℚ), 4])) ^ 2 ∧
      |compute_similarity sqrtW [(3 : ℚ), 4] (negVec [(3 : ℚ), 4]) + 1|
        ≤ 2 * normEps / sqrtW (sumSq [(3 : ℚ), 4]) + (normEps / sqrtW (sumSq [(3 : ℚ), 4])) ^ 2) :=
  ⟨⟨⟨3, by norm_num, by norm_num⟩, by norm_num [sqrtW, sumSq, dotProd],
      by norm_num [sqrtW, sumSq, dotProd]⟩,
    compute_similarity_self_neg sqrtW [(3 : ℚ), 4] ⟨3, by norm_num, by norm_num⟩
      (by norm_num [sqrtW, sumSq, dotProd]) (by norm_num [sqrtW, sumSq, dotProd])⟩

/-- Claim C10: `generate_embeddings` silently filters out texts that are
empty after cleaning: the result is exactly one vector per non-empty
cleaned text (possibly shorter than the input, with shifted positions),
and when every input text is empty it returns `[]` instead of raising. -/
theorem generate_embeddings_filters (encode : List Char → List ℚ) (maxChars : ℕ)
    (texts : List (List Char)) :
    generate_embeddings true encode maxChars texts
      = some (((texts.map (clean_text maxChars)).filter nonBlank).map encode) ∧
    (∀ r, generate_embeddings true encode maxChars texts = some r →
      r.length = ((texts.map (clean_text maxChars)).filter nonBlank).length ∧
      r.length ≤ texts.length ∧
      ((∀ t ∈ texts, nonBlank (clean_text maxChars t) = false) → r = [])) := by
  have hmain : generate_embeddings true encode maxChars texts
      = some (((texts.map (clean_text maxChars)).filter nonBlank).map encode) := by
    rw [generate_embeddings]
    by_cases hv : ((texts.map (clean_text maxChars)).filter nonBlank).isEmpty
    · rw [List.isEmpty_iff] at hv
      simp [hv]
    · simp only [Bool.not_true, Bool.false_eq_true, if_false, hv]
  refine ⟨hmain, ?_⟩
  intro r hr
  rw [hmain, Option.some_inj] at hr
  subst hr
  refine ⟨List.length_map _ _, ?_, ?_⟩
  · calc (((texts.map (clean_text maxChars)).filter nonBlank).map encode).length
        = ((texts.map (clean_text maxChars)).filter nonBlank).length :=
          List.length_map _ _
      _ ≤ (texts.map (clean_text maxChars)).length := List.length_filter_le _ _
      _ = texts.length := List.length_map _ _
  · intro hall
    have : (texts.map (clean_text maxChars)).filter nonBlank = [] := by
      rw [List.filter_eq_nil_iff]
      intro a ha
      obtain ⟨t, ht, rfl⟩ := List.mem_map.mp ha
      simp [hall t ht]
    rw [this, List.map_nil]

/-- Witness for C10: one whitespace-only text and one real text — the
result keeps exactly the non-blank cleaned text. -/
theorem generate_embeddings_filters_witness :
    generate_embeddings true (fun _ => [(1 : ℚ)]) 2000 [[' '], ['h', 'i']]
      = some (((([[' '], ['h', 'i']] : List (List Char)).map
          (clean_text 2000)).filter nonBlank).map (fun _ => [(1 : ℚ)])) :=
  (generate_embeddings_filters (fun _ => [(1 : ℚ)]) 2000 [[' '], ['h', 'i']]).1

/-- In a state where the package is unmarked, a call whose pre-install
test raises `ImportError` always reaches `_install_package`. -/
theorem ensure_retries_install (m : List (String × Bool)) (pkg : String)
    (ok' : Bool) (t2' : TOut) (h : installedGet m pkg = false) :
    (ensure_package_installed m pkg TOut.importError ok' t2').2.2 = true := by
  cases ok' <;> cases t2' <;> simp [ensure_package_installed, h]

/-- Claim C2: with an `importTest` supplied, `ensure_package_installed`
marks the package installed only if the import test succeeds (before
installing, or re-run after a successful install); a nonzero install
exit or a failing post-install import leaves the result `False` and the
package unmarked, and a subsequent call (whose pre-install import still
fails) retries the install. -/
theorem ensure_package_installed_spec (m : List (String × Bool)) (pkg : String)
    (t1 : TOut) (installOk : Bool) (t2 : TOut)
    (h : installedGet m pkg = false) :
    (installedGet (ensure_package_installed m pkg t1 installOk t2).2.1 pkg = true
      ↔ (t1 = TOut.success ∨
          (t1 = TOut.importError ∧ installOk = true ∧ t2 = TOut.success))) ∧
    ((ensure_package_installed m pkg t1 installOk t2).1
      = installedGet (ensure_package_installed m pkg t1 installOk t2).2.1 pkg) ∧
    (installOk = false → t1 ≠ TOut.success →
      (ensure_package_installed m pkg t1 installOk t2).1 = false ∧
      installedGet (ensure_package_installed m pkg t1 installOk t2).2.1 pkg = false) ∧
    (t1 = TOut.importError → t2 ≠ TOut.success →
      (ensure_package_installed m pkg t1 installOk t2).1 = false ∧
      installedGet (ensure_package_installed m pkg t1 installOk t2).2.1 pkg = false) ∧
    ((ensure_package_installed m pkg t1 installOk t2).1 = false →
      ∀ ok' t2', (ensure_package_installed
        (ensure_package_installed m pkg t1 installOk t2).2.1 pkg
        TOut.importError ok' t2').2.2 = true) := by
  have hset : installedGet (setInstalled m pkg) pkg = true := by
    simp [installedGet, setInstalled, List.lookup]
  refine ⟨?_, ?_, ?_, ?_, ?_⟩
  · cases t1 <;> cases installOk <;> cases t2 <;>
      simp [ensure_package_installed, h, hset]
  · cases t1 <;> cases installOk <;> cases t2 <;>
      simp [ensure_package_installed, h, hset]
  · intro hok ht1
    subst hok
    cases t1 <;> cases t2 <;> simp_all [ensure_package_installed, h, hset]
  · intro ht1 ht2
    subst ht1
    cases installOk <;> cases t2 <;> simp_all [ensure_package_installed, h, hset]
  · intro hf ok' t2'
    have hm : installedGet (ensure_package_installed m pkg t1 installOk t2).2.1 pkg = false := by
      cases t1 <;> cases installOk <;> cases t2 <;>
        simp_all [ensure_package_installed, h, hset]
    exact ensure_retries_install _ _ ok' t2' hm

/-- Witness for C2: a fresh map, pre-install import fails, install
succeeds, post-install import fails — the call returns false and leaves
the package unmarked, and a retry attempts the install again. -/
theorem ensure_package_installed_spec_witness :
    (installedGet [] fwPkg = false) ∧
    ((ensure_package_installed [] fwPkg TOut.importError true TOut.importError).1 = false ∧
      installedGet (ensure_package_installed [] fwPkg
        TOut.importError true TOut.importError).2.1 fwPkg = false) :=
  ⟨by decide,
    (ensure_package_installed_spec [] fwPkg TOut.importError true TOut.importError
      (by decide)).2.2.2.1 rfl (by decide)⟩

/-- Claim C3, counterexample: the state reached when model construction
succeeds but `get_sentence_embedding_dimension()` throws is reachable,
and in it the model handle is non-none while the initialized flag is
false — the claimed iff fails. -/
theorem emb_model_iff_ready_cex :
    EmbReach (embInitCall true false 384 512 embStart).1 ∧
    ¬ (((embInitCall true false 384 512 embStart).1.model.isSome = true) ↔
       ((embInitCall true false 384 512 embStart).1.initialized = true)) :=
  ⟨EmbReach.init true false 384 512 EmbReach.base, by decide⟩

/-- Claim C3, amended: in every reachable state of the embeddings service,
the initialized flag implies a non-none model handle (the converse can
fail when construction succeeded but metadata retrieval threw), and
`is_ready()` coincides with the initialized flag. -/
theorem emb_initialized_imp_model (s : EmbState) (h : EmbReach s) :
    (s.initialized = true → s.model.isSome = true) ∧
    emb_is_ready s = s.initialized := by
  induction h with
  | base => simp [embStart, emb_is_ready]
  | init c m d ms hr ih =>
    rcases ih with ⟨ih1, ih2⟩
    simp only [embInitCall]
    split_ifs with h1 h2 h3 <;> simp_all [emb_is_ready]
  | clean hr ih => simp [embCleanup, embStart, emb_is_ready]

/-- Witness for C3's amended theorem at a successfully initialized
reachable state. -/
theorem emb_initialized_imp_model_witness :
    ((embInitCall true true 384 512 embStart).1.initialized = true) ∧
    ((embInitCall true true 384 512 embStart).1.model.isSome = true) :=
  ⟨by decide,
    (emb_initialized_imp_model _ (EmbReach.init true true 384 512 EmbReach.base)).1
      (by decide)⟩

/-- Claim C4, code bug: a core-operation request arriving while the
service is not ready is answered with status **500**, not 503: the
handler's `except Exception` clause catches the `HTTPException(503)` it
itself raised and re-raises it as a 500 whose detail wraps the original
`"503: ... not ready"` text.  Shown for the embeddings `generate` and
the TTS `synthesize` handlers. -/
theorem not_ready_responds_500_not_503 :
    (generate_embedding_route false (fun _ => none) ['h', 'i']).1
      = HResp.err 500 (Detail.wrapEmbGen 503 Detail.embNotReady) ∧
    statusOf (generate_embedding_route false (fun _ => none) ['h', 'i']).1 = 500 ∧
    (synthesize_speech_route false (fun _ _ => none) ['h', 'i'] none).1
      = HResp.err 500 (Detail.wrapSynth 503 Detail.ttsNotReady) ∧
    statusOf (synthesize_speech_route false (fun _ _ => none) ['h', 'i'] none).1 = 500 := by
  decide

/-- Claim C5, code bug: an embed request with empty (or whitespace-only)
text on a ready service makes no backend call, but is answered with
status **500** (the wrapped `400: Text is required`), not a
400-equivalent: the `except Exception` clause re-wraps the handler's own
`HTTPException(400)`. -/
theorem empty_text_responds_500_no_backend :
    (generate_embedding_route true (fun _ => some [1]) []).1
      = HResp.err 500 (Detail.wrapEmbGen 400 Detail.textRequired) ∧
    (generate_embedding_route true (fun _ => some [1]) []).2 = false ∧
    (generate_embedding_route true (fun _ => some [1]) [' ', '\t', ' ']).1
      = HResp.err 500 (Detail.wrapEmbGen 400 Detail.textRequired) ∧
    (generate_embedding_route true (fun _ => some [1]) [' ', '\t', ' ']).2 = false := by
  decide

theorem firstDimMismatch_eq_some (qlen : ℕ) (cands : List (List ℚ)) (i : ℕ)
    (hi : i < cands.length)
    (hbad : (cands.getD i []).length ≠ qlen)
    (hfirst : ∀ j, j < i → (cands.getD j []).length = qlen) :
    firstDimMismatch qlen cands = some i := by
  induction cands generalizing i with
  | nil => simp at hi
  | cons c rest ih =>
    cases i with
    | zero =>
      have hc : c.length ≠ qlen := by simpa using hbad
      simp [firstDimMismatch, if_pos hc]
    | succ j =>
      have hc : c.length = qlen := by simpa using hfirst 0 (Nat.succ_pos j)
      rw [firstDimMismatch, if_neg (not_not_intro hc)]
      rw [ih j (by simpa using hi) (by simpa using hbad)
        (fun j' hj' => by simpa using hfirst (j' + 1) (by omega))]
      rfl

/-- Claim C6: a search request (on a ready service) in which some candidate
has a dimension different from the query's is answered with an error
identifying the index of the first offending candidate, and
`find_most_similar` is never invoked, so no candidate — valid or not —
is scored. -/
theorem search_dim_mismatch_route (sq : ℚ → ℚ) (query : List ℚ)
    (cands : List (List ℚ)) (k i : ℕ)
    (hq : query ≠ []) (hc : cands ≠ [])
    (hi : i < cands.length)
    (hbad : (cands.getD i []).length ≠ query.length)
    (hfirst : ∀ j, j < i → (cands.getD j []).length = query.length) :
    similarity_search_route true sq query cands k
      = (HResp.err 500 (Detail.wrapSearch 400 (Detail.candidateDimMismatch i)), false) := by
  have hfd := firstDimMismatch_eq_some query.length cands i hi hbad hfirst
  have he : (query.isEmpty || cands.isEmpty) = false := by
    simp [List.isEmpty_iff, hq, hc]
  simp [similarity_search_route, he, hfd]

/-- Witness for C6: query of dimension 2, second candidate of
dimension 1 — the error names index 1 and no scoring happens. -/
theorem search_dim_mismatch_route_witness :
    (([(1 : ℚ), 0] : List ℚ) ≠ [] ∧
      ([[(1 : ℚ), 0], [1], [2, 3]] : List (List ℚ)) ≠ [] ∧
      1 < ([[(1 : ℚ), 0], [1], [2, 3]] : List (List ℚ)).length ∧
      (([[(1 : ℚ), 0], [1], [2, 3]] : List (List ℚ)).getD 1 []).length
        ≠ ([(1 : ℚ), 0] : List ℚ).length) ∧
    similarity_search_route true (fun _ => 0) [(1 : ℚ), 0] [[(1 : ℚ), 0], [1], [2, 3]] 5
      = (HResp.err 500 (Detail.wrapSearch 400 (Detail.candidateDimMismatch 1)), false) :=
  ⟨⟨by decide, by decide, by decide, by decide⟩,
    search_dim_mismatch_route (fun _ => 0) [(1 : ℚ), 0] [[(1 : ℚ), 0], [1], [2, 3]] 5 1
      (by decide) (by decide) (by decide) (by decide)
      (fun j hj => by
        have hj0 : j = 0 := by omega
        subst hj0
        decide)⟩

theorem wavHeader_length (sr n : ℕ) : (wavHeader sr n).length = 44 := by
  simp [wavHeader, u32le, u16le]

theorem float32_to_wav_drop (samples : List ℚ) (sr : ℕ) :
    (float32_to_wav samples sr).drop 44
      = ((samples.map toInt16).map packInt16LE).flatten := by
  simp only [float32_to_wav]
  rw [show (44 : ℕ)
      = (wavHeader sr (((samples.map toInt16).map packInt16LE).flatten).length).length
    from (wavHeader_length _ _).symm]
  exact List.drop_left _ _

theorem toInt16_range (s : ℚ) : -32767 ≤ toInt16 s ∧ toInt16 s ≤ 32767 := by
  unfold toInt16 pyTrunc clampSample
  set x := max (-1 : ℚ) (min 1 s) * 32767 with hx
  have hx1 : x ≤ 32767 := by
    have h1 : min 1 s ≤ 1 := min_le_left _ _
    have h2 : max (-1 : ℚ) (min 1 s) ≤ 1 := max_le (by norm_num) h1
    nlinarith
  have hx2 : -32767 ≤ x := by
    have h1 : (-1 : ℚ) ≤ max (-1) (min 1 s) := le_max_left _ _
    nlinarith
  split_ifs with h0
  · constructor
    · rw [Int.le_floor]; push_cast; linarith
    · have h3 : (⌊x⌋ : ℚ) ≤ 32767 := le_trans (Int.floor_le x) hx1
      exact_mod_cast h3
  · constructor
    · have h3 : (-32767 : ℚ) ≤ (⌈x⌉ : ℚ) := le_trans hx2 (Int.le_ceil x)
      exact_mod_cast h3
    · rw [Int.ceil_le]; push_cast; linarith

theorem decode_pack_cons (q : ℤ) (rest : List ℕ)
    (h1 : -32768 ≤ q) (h2 : q ≤ 32767) :
    decodeInt16LE (packInt16LE q ++ rest) = q :: decodeInt16LE rest := by
  simp only [packInt16LE, List.cons_append, List.nil_append, decodeInt16LE]
  congr 1
  split_ifs with hc <;> omega

theorem decode_flatten (qs : List ℤ)
    (h : ∀ q ∈ qs, -32768 ≤ q ∧ q ≤ 32767) :
    decodeInt16LE ((qs.map packInt16LE).flatten) = qs := by
  induction qs with
  | nil => rfl
  | cons q rest ih =>
    simp only [List.map_cons, List.flatten_cons]
    rw [decode_pack_cons q _ (h q (List.mem_cons_self _ _)).1
      (h q (List.mem_cons_self _ _)).2]
    rw [ih (fun q' hq' => h q' (List.mem_cons_of_mem _ hq'))]

theorem sample_quant_error (s : ℚ) (h1 : -1 ≤ s) (h2 : s ≤ 1) :
    |s - (toInt16 s : ℚ) / 32767| ≤ 1 / 32767 := by
  have hcl : clampSample s = s := by
    unfold clampSample
    rw [min_eq_right h2, max_eq_right h1]
  unfold toInt16
  rw [hcl]
  set x := s * 32767 with hx
  have hq : |x - (pyTrunc x : ℚ)| ≤ 1 := by
    unfold pyTrunc
    split_ifs with h0
    · rw [abs_sub_le_iff]
      constructor
      · linarith [Int.lt_floor_add_one x]
      · linarith [Int.floor_le x]
    · rw [abs_sub_le_iff]
      constructor
      · linarith [Int.le_ceil x]
      · linarith [Int.ceil_lt_add_one x]
  have heq : s - (pyTrunc x : ℚ) / 32767 = (x - (pyTrunc x : ℚ)) / 32767 := by
    rw [hx]; ring
  rw [heq, abs_div]
  rw [show |(32767 : ℚ)| = 32767 from abs_of_pos (by norm_num)]
  gcongr

/-- Claim C9: encoding float samples in `[-1,1]` to 16-bit PCM WAV bytes
via `_float32_to_wav` and decoding the PCM frames (past the 44-byte
header) back to floats by dividing each int16 sample by 32767 recovers
every sample within int16 quantization error `1/32767`. -/
theorem wav_roundtrip (samples : List ℚ) (sr : ℕ)
    (hb : ∀ s ∈ samples, -1 ≤ s ∧ s ≤ 1) :
    (decodeSamples ((float32_to_wav samples sr).drop 44)).length = samples.length ∧
    (∀ i, i < samples.length →
      |samples.getD i 0
        - (decodeSamples ((float32_to_wav samples sr).drop 44)).getD i 0|
        ≤ 1 / 32767) := by
  have hrange : ∀ q ∈ samples.map toInt16, -32768 ≤ q ∧ q ≤ 32767 := by
    intro q hq
    obtain ⟨s, hs, rfl⟩ := List.mem_map.mp hq
    exact ⟨le_trans (by norm_num) (toInt16_range s).1, (toInt16_range s).2⟩
  have hdec : decodeSamples ((float32_to_wav samples sr).drop 44)
      = samples.map (fun s => (toInt16 s : ℚ) / 32767) := by
    rw [float32_to_wav_drop, decodeSamples, decode_flatten _ hrange, List.map_map]
    rfl
  rw [hdec]
  refine ⟨List.length_map _ _, ?_⟩
  intro i hi
  have hi' : i < (samples.map (fun s => (toInt16 s : ℚ) / 32767)).length := by
    simpa using hi
  rw [List.getD_eq_getElem _ _ hi, List.getD_eq_getElem _ _ hi', List.getElem_map]
  exact sample_quant_error _ (hb _ (List.getElem_mem _)).1 (hb _ (List.getElem_mem _)).2

/-- Witness for C9 at the concrete sample list `[1, 0, -1]`. -/
theorem wav_roundtrip_witness :
    (∀ s ∈ [(1 : ℚ), 0, -1], -1 ≤ s ∧ s ≤ 1) ∧
    ((decodeSamples ((float32_to_wav [(1 : ℚ), 0, -1] 16000).drop 44)).length
        = ([(1 : ℚ), 0, -1] : List ℚ).length ∧
      (∀ i, i < ([(1 : ℚ), 0, -1] : List ℚ).length →
        |([(1 : ℚ), 0, -1] : List ℚ).getD i 0
          - (decodeSamples ((float32_to_wav [(1 : ℚ), 0, -1] 16000).drop 44)).getD i 0|
          ≤ 1 / 32767)) :=
  ⟨by norm_num, wav_roundtrip [(1 : ℚ), 0, -1] 16000 (by norm_num)⟩

theorem svcReach_run (outcomes installOk : ℕ → Bool) (σ : SvcState)
    (h : SvcReach outcomes installOk σ) (sched : List ℕ) :
    SvcReach outcomes installOk (svcRun outcomes installOk σ sched) := by
  induction sched generalizing σ with
  | nil => exact h
  | cons i rest ih =>
    simp only [svcRun]
    rcases hs : svcStep outcomes installOk σ i with _ | σ'
    · exact ih σ h
    · exact ih σ' (SvcReach.step h hs)

theorem getD_set_ne {α : Type _} (l : List α) (i j : ℕ) (a d : α) (h : i ≠ j) :
    (l.set i a).getD j d = l.getD j d := by
  rw [List.getD_eq_getElem?_getD, List.getD_eq_getElem?_getD, List.getElem?_set_ne h]

theorem getD_set_self {α : Type _} (l : List α) (i : ℕ) (a d : α)
    (h : i < l.length) : (l.set i a).getD i d = a := by
  rw [List.getD_eq_getElem?_getD, List.getElem?_set_self h]
  rfl

theorem lt_length_of_getD_ne {α : Type _} (l : List α) (i : ℕ) (d : α)
    (h : l.getD i d ≠ d) : i < l.length := by
  by_contra hge
  push_neg at hge
  exact h (List.getD_eq_default l d hge)

/-- Claim C1, counterexample: two reachable executions of two concurrent
`initialize()` callers falsify the claim.  First, with the first
model-construction attempt failing and the second succeeding, **two**
construction attempts occur and the callers observe different terminal
results (a failure is not latched: the second lock-holder finds
`_initialized` still false and retries).  Second, with caller 1's
pre-lock `ensure_package_installed` phase failing, exactly one successful
construction occurs yet caller 1 observes `False` — returned before the
lock — so the callers again observe different terminal results. -/
theorem single_flight_cex :
    ((svcRun (fun k => k == 1) (fun _ => true) (svcStart 2) [0, 0, 0, 1, 1, 1]).attempts = 2 ∧
      (svcRun (fun k => k == 1) (fun _ => true) (svcStart 2) [0, 0, 0, 1, 1, 1]).callers
        = [Pc.done false, Pc.done true] ∧
      SvcReach (fun k => k == 1) (fun _ => true)
        (svcRun (fun k => k == 1) (fun _ => true) (svcStart 2) [0, 0, 0, 1, 1, 1])) ∧
    ((svcRun (fun _ => true) (fun k => k == 0) (svcStart 2) [0, 0, 0, 1]).attempts = 1 ∧
      (svcRun (fun _ => true) (fun k => k == 0) (svcStart 2) [0, 0, 0, 1]).callers
        = [Pc.done true, Pc.done false] ∧
      SvcReach (fun _ => true) (fun k => k == 0)
        (svcRun (fun _ => true) (fun k => k == 0) (svcStart 2) [0, 0, 0, 1])) :=
  ⟨⟨by decide, by decide, svcReach_run _ _ _ (SvcReach.base 2) _⟩,
    ⟨by decide, by decide, svcReach_run _ _ _ (SvcReach.base 2) _⟩⟩

/-- Claim C1, amended: the per-service lock serializes the critical
sections, and when the first construction attempt succeeds the
single-flight property holds for every caller that reaches the lock: in
every reachable state at most one construction attempt has occurred, the
service is initialized exactly when that attempt has happened, and every
finished caller whose pre-lock dependency phase succeeded observed
success.  (A caller whose `ensure_package_installed` phase fails returns
`False` before the lock without a construction attempt, and after a
*failed* construction attempt the next lock-holder retries, as the
counterexample shows.) -/
theorem single_flight_success (outcomes installOk : ℕ → Bool)
    (h0 : outcomes 0 = true)
    (σ : SvcState) (h : SvcReach outcomes installOk σ) :
    σ.attempts ≤ 1 ∧ (σ.initialized = true ↔ σ.attempts = 1) ∧
    (∀ i r, σ.callers.getD i (Pc.done true) = Pc.done r →
      installOk i = true → r = true) := by
  induction h with
  | base n =>
    refine ⟨by simp [svcStart], by simp [svcStart], ?_⟩
    intro i r hir _
    simp only [svcStart] at hir
    rcases lt_or_ge i n with hn | hn
    · rw [List.getD_eq_getElem _ _ (by simpa using hn), List.getElem_replicate] at hir
      exact absurd hir (by simp)
    · rw [List.getD_eq_default _ _ (by simpa using hn)] at hir
      injection hir with hir
      exact hir.symm
  | @step σ i σ' hr hstep ih =>
    obtain ⟨ih1, ih2, ih3⟩ := ih
    unfold svcStep at hstep
    split_ifs at hstep with h1 h2 h3 h4 h5 h6
    · obtain rfl := Option.some_inj.mp hstep
      refine ⟨ih1, ih2, ?_⟩
      intro j r hjr hk
      dsimp only at hjr
      by_cases hij : i = j
      · subst hij
        rcases lt_or_ge i σ.callers.length with hlen | hlen
        · rw [getD_set_self _ _ _ _ hlen] at hjr
          exact absurd hjr (by simp)
        · rw [List.getD_eq_default _ _ (by simpa using hlen)] at hjr
          injection hjr with hjr
          exact hjr.symm
      · rw [getD_set_ne _ _ _ _ _ hij] at hjr
        exact ih3 j r hjr hk
    · obtain rfl := Option.some_inj.mp hstep
      refine ⟨ih1, ih2, ?_⟩
      intro j r hjr hk
      dsimp only at hjr
      by_cases hij : i = j
      · subst hij
        exact absurd hk h2
      · rw [getD_set_ne _ _ _ _ _ hij] at hjr
        exact ih3 j r hjr hk
    · obtain rfl := Option.some_inj.mp hstep
      exact ⟨ih1, ih2, ih3⟩
    · obtain rfl := Option.some_inj.mp hstep
      refine ⟨ih1, ih2, ?_⟩
      intro j r hjr hk
      dsimp only at hjr
      by_cases hij : i = j
      · subst hij
        have hinst : σ.callers.getD i (Pc.done true) = Pc.installed :=
          not_not.mp h3
        have hlen : i < σ.callers.length :=
          lt_length_of_getD_ne _ _ _ (by rw [hinst]; simp)
        rw [getD_set_self _ _ _ _ hlen] at hjr
        injection hjr with hjr
        exact hjr.symm
      · rw [getD_set_ne _ _ _ _ _ hij] at hjr
        exact ih3 j r hjr hk
    · obtain rfl := Option.some_inj.mp hstep
      have ha : σ.attempts = 0 := by
        have hne : σ.attempts ≠ 1 := fun hh => h6 (ih2.mpr hh)
        omega
      refine ⟨by simp [ha], by simp [ha, h0], ?_⟩
      intro j r hjr hk
      dsimp only at hjr
      by_cases hij : i = j
      · subst hij
        have hinst : σ.callers.getD i (Pc.done true) = Pc.installed :=
          not_not.mp h3
        have hlen : i < σ.callers.length :=
          lt_length_of_getD_ne _ _ _ (by rw [hinst]; simp)
        rw [getD_set_self _ _ _ _ hlen] at hjr
        rw [ha, h0] at hjr
        injection hjr with hjr
        exact hjr.symm
      · rw [getD_set_ne _ _ _ _ _ hij] at hjr
        exact ih3 j r hjr hk

/-- Witness for C1's amended theorem: two callers, installer phase and
construction always succeeding, the full schedule run — one attempt, and
every finished caller observed success. -/
theorem single_flight_success_witness :
    ((fun _ : ℕ => true) 0 = true) ∧
    ((svcRun (fun _ => true) (fun _ => true) (svcStart 2) [0, 0, 0, 1, 1, 1]).attempts ≤ 1 ∧
      ((svcRun (fun _ => true) (fun _ => true) (svcStart 2) [0, 0, 0, 1, 1, 1]).initialized = true ↔
        (svcRun (fun _ => true) (fun _ => true) (svcStart 2) [0, 0, 0, 1, 1, 1]).attempts = 1) ∧
      (∀ i r, (svcRun (fun _ => true) (fun _ => true) (svcStart 2)
          [0, 0, 0, 1, 1, 1]).callers.getD i (Pc.done true) = Pc.done r →
        (fun _ : ℕ => true) i = true → r = true)) :=
  ⟨rfl, single_flight_success (fun _ => true) (fun _ => true) rfl _
    (svcReach_run _ _ _ (SvcReach.base 2) _)⟩

end Alice
